import Mathlib

/-!
Verification of the upspin `config` package (`src/config/initconfig.go`).

The Go code builds an immutable configuration by chaining lightweight
wrapper values (`cfgUserName`, `cfgPacking`, `cfgFactotum`,
`cfgKeyEndpoint`, `cfgStoreEndpoint`, `cfgDirEndpoint`,
`cfgCacheEndpoint`, `cfgValue`, `cfgValueMap`), each overriding exactly
one accessor of the wrapped `upspin.Config` and delegating every other
call.  We embed that decorator chain as an inductive type whose
constructors mirror the wrapper structs, with one recursive function per
accessor performing the same dispatch the Go method set performs.

External collaborators (the `upspin` package types, `user.Clean`,
`pack.LookupByName`, `factotum.NewFromDir`, the YAML library and the
`flag` registry) are not part of `src/`; where a claim depends on their
behaviour they are modelled from the specification, with a doc comment
saying so.
-/

set_option autoImplicit false

namespace UpspinConfig

/-- Transport of an `upspin.Endpoint`.  Modelled from the spec: the
endpoint enum is {unassigned, remote, ...} with `inprocess` appearing in
the endpoint grammar examples; `unassigned` is the zero value. -/
inductive Transport where
  | unassigned
  | remote
  | inProcess
  deriving DecidableEq, Repr

/-- An `upspin.Endpoint`: a transport plus a network address. -/
structure Endpoint where
  transport : Transport
  netAddr : String
  deriving DecidableEq, Repr

/-- The zero value `upspin.Endpoint{}`: unassigned transport, empty
address. -/
def Endpoint.zero : Endpoint := ⟨Transport.unassigned, ""⟩

/-- `upspin.Packing` identifiers.  The packing codec registry is an
external collaborator; only the identifiers themselves are needed. -/
inductive Packing where
  | plainPack
  | eePack
  | eeIntegrityPack
  deriving DecidableEq, Repr

/-- A Factotum handle.  Key material loading is an external
collaborator; the handle is opaque, and `Option` models Go's nil
interface (`base.Factotum()` returns nil). -/
abbrev Factotum := String

/-- Default user name `noone@nowhere.org` (var block, initconfig.go). -/
def defaultUserName : String := "noone@nowhere.org"

/-- Default packing `upspin.EEPack`. -/
def defaultPacking : Packing := Packing.eePack

/-- Default key endpoint `remote,key.upspin.io:443`. -/
def defaultKeyEndpoint : Endpoint := ⟨Transport.remote, "key.upspin.io:443"⟩

/-- The immutable configuration decorator chain.  `base` is the
all-defaults configuration returned by `New()`; every other constructor
is one of the `cfg*` wrapper structs, holding its overriding value and
the wrapped predecessor. -/
inductive Config where
  | base
  | userName (u : String) (c : Config)
  | factotum (f : Option Factotum) (c : Config)
  | packing (p : Packing) (c : Config)
  | keyEndpoint (e : Endpoint) (c : Config)
  | storeEndpoint (e : Endpoint) (c : Config)
  | cacheEndpoint (e : Endpoint) (c : Config)
  | dirEndpoint (e : Endpoint) (c : Config)
  | value (k v : String) (c : Config)
  | valueMap (m : List (String × String)) (c : Config)
  deriving DecidableEq, Repr

/-- `UserName()` accessor: `cfgUserName` answers; every other wrapper
delegates; `base` returns the default. -/
def Config.UserName : Config → String
  | .base => defaultUserName
  | .userName u _ => u
  | .factotum _ c => c.UserName
  | .packing _ c => c.UserName
  | .keyEndpoint _ c => c.UserName
  | .storeEndpoint _ c => c.UserName
  | .cacheEndpoint _ c => c.UserName
  | .dirEndpoint _ c => c.UserName
  | .value _ _ c => c.UserName
  | .valueMap _ c => c.UserName

/-- `Factotum()` accessor: `base` returns nil (`none`). -/
def Config.Factotum : Config → Option Factotum
  | .base => none
  | .userName _ c => c.Factotum
  | .factotum f _ => f
  | .packing _ c => c.Factotum
  | .keyEndpoint _ c => c.Factotum
  | .storeEndpoint _ c => c.Factotum
  | .cacheEndpoint _ c => c.Factotum
  | .dirEndpoint _ c => c.Factotum
  | .value _ _ c => c.Factotum
  | .valueMap _ c => c.Factotum

/-- `Packing()` accessor. -/
def Config.Packing : Config → Packing
  | .base => defaultPacking
  | .userName _ c => c.Packing
  | .factotum _ c => c.Packing
  | .packing p _ => p
  | .keyEndpoint _ c => c.Packing
  | .storeEndpoint _ c => c.Packing
  | .cacheEndpoint _ c => c.Packing
  | .dirEndpoint _ c => c.Packing
  | .value _ _ c => c.Packing
  | .valueMap _ c => c.Packing

/-- `KeyEndpoint()` accessor: `base` returns `defaultKeyEndpoint`. -/
def Config.KeyEndpoint : Config → Endpoint
  | .base => defaultKeyEndpoint
  | .userName _ c => c.KeyEndpoint
  | .factotum _ c => c.KeyEndpoint
  | .packing _ c => c.KeyEndpoint
  | .keyEndpoint e _ => e
  | .storeEndpoint _ c => c.KeyEndpoint
  | .cacheEndpoint _ c => c.KeyEndpoint
  | .dirEndpoint _ c => c.KeyEndpoint
  | .value _ _ c => c.KeyEndpoint
  | .valueMap _ c => c.KeyEndpoint

/-- `StoreEndpoint()` accessor: `base` returns the zero endpoint. -/
def Config.StoreEndpoint : Config → Endpoint
  | .base => Endpoint.zero
  | .userName _ c => c.StoreEndpoint
  | .factotum _ c => c.StoreEndpoint
  | .packing _ c => c.StoreEndpoint
  | .keyEndpoint _ c => c.StoreEndpoint
  | .storeEndpoint e _ => e
  | .cacheEndpoint _ c => c.StoreEndpoint
  | .dirEndpoint _ c => c.StoreEndpoint
  | .value _ _ c => c.StoreEndpoint
  | .valueMap _ c => c.StoreEndpoint

/-- `CacheEndpoint()` accessor.  Modelled from the spec for `base`:
unset endpoints carry the unassigned sentinel and empty address (the
`base` struct in `src/` does not declare this method; the spec's data
model lists `cacheEndpoint` among the independently settable endpoint
accessors with the same unset sentinel). -/
def Config.CacheEndpoint : Config → Endpoint
  | .base => Endpoint.zero
  | .userName _ c => c.CacheEndpoint
  | .factotum _ c => c.CacheEndpoint
  | .packing _ c => c.CacheEndpoint
  | .keyEndpoint _ c => c.CacheEndpoint
  | .storeEndpoint _ c => c.CacheEndpoint
  | .cacheEndpoint e _ => e
  | .dirEndpoint _ c => c.CacheEndpoint
  | .value _ _ c => c.CacheEndpoint
  | .valueMap _ c => c.CacheEndpoint

/-- `DirEndpoint()` accessor: `base` returns the zero endpoint. -/
def Config.DirEndpoint : Config → Endpoint
  | .base => Endpoint.zero
  | .userName _ c => c.DirEndpoint
  | .factotum _ c => c.DirEndpoint
  | .packing _ c => c.DirEndpoint
  | .keyEndpoint _ c => c.DirEndpoint
  | .storeEndpoint _ c => c.DirEndpoint
  | .cacheEndpoint _ c => c.DirEndpoint
  | .dirEndpoint e _ => e
  | .value _ _ c => c.DirEndpoint
  | .valueMap _ c => c.DirEndpoint

/-- Lookup in an association list, mirroring a Go map read with a
found-flag. -/
def alookup (m : List (String × String)) (k : String) : Option String :=
  (m.find? (fun p => p.1 = k)).map (fun p => p.2)

/-- `Value(key)` accessor: `base` returns `""`; `cfgValue` answers only
for its own key; `cfgValueMap` answers from its map, delegating on a
miss. -/
def Config.Value : Config → String → String
  | .base, _ => ""
  | .userName _ c, k => c.Value k
  | .factotum _ c, k => c.Value k
  | .packing _ c, k => c.Value k
  | .keyEndpoint _ c, k => c.Value k
  | .storeEndpoint _ c, k => c.Value k
  | .cacheEndpoint _ c, k => c.Value k
  | .dirEndpoint _ c, k => c.Value k
  | .value ck cv c, k => if k = ck then cv else c.Value k
  | .valueMap m c, k =>
      match alookup m k with
      | some v => v
      | none => c.Value k

/-- `SetUserName` (initconfig.go): wrap with `cfgUserName`. -/
def SetUserName (cfg : Config) (u : String) : Config := Config.userName u cfg

/-- `SetFactotum`: wrap with `cfgFactotum`. -/
def SetFactotum (cfg : Config) (f : Option Factotum) : Config := Config.factotum f cfg

/-- `SetPacking`: wrap with `cfgPacking`. -/
def SetPacking (cfg : Config) (p : Packing) : Config := Config.packing p cfg

/-- `SetKeyEndpoint`: wrap with `cfgKeyEndpoint`. -/
def SetKeyEndpoint (cfg : Config) (e : Endpoint) : Config := Config.keyEndpoint e cfg

/-- `SetStoreEndpoint`: wrap with `cfgStoreEndpoint`. -/
def SetStoreEndpoint (cfg : Config) (e : Endpoint) : Config := Config.storeEndpoint e cfg

/-- `SetCacheEndpoint`: wrap with `cfgCacheEndpoint`. -/
def SetCacheEndpoint (cfg : Config) (e : Endpoint) : Config := Config.cacheEndpoint e cfg

/-- `SetDirEndpoint`: wrap with `cfgDirEndpoint`. -/
def SetDirEndpoint (cfg : Config) (e : Endpoint) : Config := Config.dirEndpoint e cfg

/-- `SetValue`: wrap with `cfgValue`. -/
def SetValue (cfg : Config) (k v : String) : Config := Config.value k v cfg

/-- The single-accessor field tags of the overlay chain builder: each
one names one wrapper struct overriding one `get`-style accessor. -/
inductive FieldTag where
  | userName
  | factotum
  | packing
  | keyEndpoint
  | storeEndpoint
  | cacheEndpoint
  | dirEndpoint
  deriving DecidableEq, Repr

/-- The type of the value carried by each field tag. -/
def FieldTag.Val : FieldTag → Type
  | .userName => String
  | .factotum => Option Factotum
  | .packing => Packing
  | .keyEndpoint => Endpoint
  | .storeEndpoint => Endpoint
  | .cacheEndpoint => Endpoint
  | .dirEndpoint => Endpoint

/-- `withField`: dispatch to the `Set*` operation for the tag. -/
def setField : (f : FieldTag) → f.Val → Config → Config
  | .userName, x, c => SetUserName c x
  | .factotum, x, c => SetFactotum c x
  | .packing, x, c => SetPacking c x
  | .keyEndpoint, x, c => SetKeyEndpoint c x
  | .storeEndpoint, x, c => SetStoreEndpoint c x
  | .cacheEndpoint, x, c => SetCacheEndpoint c x
  | .dirEndpoint, x, c => SetDirEndpoint c x

/-- The accessor selected by a field tag. -/
def getField : (f : FieldTag) → Config → f.Val
  | .userName, c => c.UserName
  | .factotum, c => c.Factotum
  | .packing, c => c.Packing
  | .keyEndpoint, c => c.KeyEndpoint
  | .storeEndpoint, c => c.StoreEndpoint
  | .cacheEndpoint, c => c.CacheEndpoint
  | .dirEndpoint, c => c.DirEndpoint

/-- Character membership in a string, modelling Go's
`strings.Contains(text, sep)` for the one-character separators used by
the endpoint code (`,` and `:`). -/
def containsChar (s : String) (c : Char) : Bool := s.data.contains c

/-- Split a character list at its first comma, returning the parts
before and after it. -/
def splitFirstComma : List Char → Option (List Char × List Char)
  | [] => none
  | c :: rest =>
    if c = ',' then some ([], rest)
    else
      match splitFirstComma rest with
      | none => none
      | some (a, b) => some (c :: a, b)

/-- Modelled from the spec: `upspin.ParseEndpoint` lives in the
`upspin` package, which is not under `src/`.  The spec's endpoint text
grammar is a transport name, a comma, then the address, with transports
unassigned, remote and inprocess; text that does not fit the grammar is
an error describing the input. -/
def ParseEndpoint (s : String) : Except String Endpoint :=
  match splitFirstComma s.data with
  | none => Except.error ("unknown transport type in endpoint " ++ s)
  | some (t, a) =>
    if t = "remote".data then Except.ok ⟨Transport.remote, String.mk a⟩
    else if t = "inprocess".data then Except.ok ⟨Transport.inProcess, String.mk a⟩
    else if t = "unassigned".data then Except.ok ⟨Transport.unassigned, String.mk a⟩
    else Except.error ("unknown transport type in endpoint " ++ s)

/-- The non-fatal error value that `InitConfig` may return alongside a
configuration: the `ErrNoFactotum` sentinel, or the first recorded
endpoint parse error (`cannot parse service "text"`). -/
inductive CfgErr where
  | noFactotum
  | parseService (text : String)
  deriving DecidableEq, Repr

/-- `parseEndpoint` (initconfig.go lines 258-288): read `vals[key]`;
missing or empty text yields the zero endpoint with no error recorded;
otherwise parse the text, retrying with a `remote,` prefix when the
first parse fails and the text has no comma; if both fail, record the
error in `errorp` only when `errorp` is still empty and return the zero
endpoint; finally, a remote endpoint whose address has no colon gets
`:443` appended. -/
def parseEndpoint (vals : List (String × String)) (key : String)
    (errorp : Option CfgErr) : Endpoint × Option CfgErr :=
  match alookup vals key with
  | none => (Endpoint.zero, errorp)
  | some text =>
    if text = "" then (Endpoint.zero, errorp)
    else
      let step2 : Except String Endpoint :=
        match ParseEndpoint text with
        | Except.error e =>
          if containsChar text ',' then Except.error e
          else
            match ParseEndpoint ("remote," ++ text) with
            | Except.ok ep2 => Except.ok ep2
            | Except.error _ => Except.error e
        | Except.ok ep => Except.ok ep
      match step2 with
      | Except.error _ =>
        (Endpoint.zero,
          match errorp with
          | none => some (CfgErr.parseService text)
          | some e => some e)
      | Except.ok ep =>
        if ep.transport = Transport.remote ∧ containsChar ep.netAddr ':' = false then
          (⟨ep.transport, ep.netAddr ++ ":443"⟩, errorp)
        else (ep, errorp)

/-- A decoded YAML value, as the external `yaml.Unmarshal` produces it
into a Go `interface` slot: a string, an integer, a boolean, a nested
mapping (with arbitrarily typed keys) or a sequence.  The spec models
the raw decode step as a small closed variant of exactly this shape. -/
inductive YVal where
  | str (s : String)
  | int (n : Int)
  | bool (b : Bool)
  | map (entries : List (YVal × YVal))
  | seq (items : List YVal)

/-- `asString` (initconfig.go lines 248-256): numeric and boolean
values print with Go's default formatting, strings pass through, and
everything else is an `Invalid` error. -/
def asString : YVal → Except String String
  | YVal.int n => Except.ok (toString n)
  | YVal.bool b => Except.ok (if b then "true" else "false")
  | YVal.str s => Except.ok s
  | _ => Except.error "unrecognized value"

/-- Overwrite the value stored under a key that is already present,
modelling a Go map store on an existing key. -/
def aupdate (m : List (String × String)) (k v : String) : List (String × String) :=
  m.map (fun p => if p.1 = k then (p.1, v) else p)

/-- `valsFromYAML` (initconfig.go lines 227-244) from the decoded
document onward: the byte-level `yaml.Unmarshal` is external, so the
document arrives as an association list of decoded entries (one Go map
iteration).  A key present in `vals` must coerce via `asString` and
overwrites the default, a coercion failure aborting with the key as
context; every other key is added to `other` verbatim. -/
def valsFromYAML (vals : List (String × String)) (other : List (String × YVal)) :
    List (String × YVal) → Except String (List (String × String) × List (String × YVal))
  | [] => Except.ok (vals, other)
  | (k, v) :: rest =>
    if (alookup vals k).isSome then
      match asString v with
      | Except.error e => Except.error (k ++ ": " ++ e)
      | Except.ok s => valsFromYAML (aupdate vals k s) other rest
    else valsFromYAML vals (other ++ [(k, v)]) rest

/-- The known configuration keys (const block, initconfig.go). -/
def username : String := "username"

def keyserver : String := "keyserver"

def dirserver : String := "dirserver"

def storeserver : String := "storeserver"

def packing : String := "packing"

def secrets : String := "secrets"

/-- Modelled from the spec: the textual names of the transports as they
appear in the endpoint grammar (the `upspin` package is not under
`src/`). -/
def Transport.goString : Transport → String
  | Transport.unassigned => "unassigned"
  | Transport.remote => "remote"
  | Transport.inProcess => "inprocess"

/-- Modelled from the spec: `upspin.Endpoint.String` renders the
endpoint text form, transport name, comma, address. -/
def Endpoint.goString (e : Endpoint) : String :=
  e.transport.goString ++ "," ++ e.netAddr

/-- Modelled from the spec: the packing names known to the external
codec registry; the default policy's name is `ee`. -/
def Packing.goName : Packing → String
  | Packing.plainPack => "plain"
  | Packing.eePack => "ee"
  | Packing.eeIntegrityPack => "eeintegrity"

/-- The seeded defaults of `InitConfig` (lines 131-137): username,
packing and keyserver carry their defaults; dirserver and storeserver
are empty; `secrets` is not among them. -/
def initVals : List (String × String) :=
  [(username, defaultUserName),
   (packing, defaultPacking.goName),
   (keyserver, defaultKeyEndpoint.goString),
   (dirserver, ""),
   (storeserver, "")]

/-- Lookup in the other-values bag. -/
def olookup (m : List (String × YVal)) (k : String) : Option YVal :=
  (m.find? (fun p => p.1 = k)).map (fun p => p.2)

/-- A Go map read where a missing key yields the zero string. -/
def lookupOr (m : List (String × String)) (k : String) : String :=
  match alookup m k with
  | some v => v
  | none => ""

/-- Render a scalar decoded value back to text. -/
def yScalarString : YVal → String
  | YVal.str s => s
  | YVal.int n => toString n
  | YVal.bool b => if b then "true" else "false"
  | _ => ""

/-- Modelled from the spec: the external `yaml.Marshal` followed by
`bytes.TrimSpace` (lines 214-218) re-serializes a decoded value to its
canonical textual form; scalars keep their scalar rendering (already
free of surrounding space here), and a nested mapping becomes its
key-colon-value lines. -/
def yamlMarshal : YVal → String
  | YVal.map l =>
      String.intercalate "\n"
        (l.map (fun p => yScalarString p.1 ++ ": " ++ yScalarString p.2))
  | YVal.seq l => String.intercalate "\n" (l.map (fun v => "- " ++ yScalarString v))
  | v => yScalarString v

/-- The extension-bag construction in `InitConfig` (lines 208-219):
every entry of `other` is re-serialized and keyed by its key
(`asString` on a key of a Go `map[string]interface` is the identity,
so it cannot fail). -/
def buildValueMap (other : List (String × YVal)) : List (String × String) :=
  other.map (fun p => (p.1, yamlMarshal p.2))

/-- The external collaborators `InitConfig` calls out to, per the
spec's component design: `user.Clean`, `pack.LookupByName`,
`factotum.NewFromDir` and the `.ssh`-directory discovery; none of them
is under `src/`, so they enter the model as capabilities. -/
structure Collaborators where
  clean : String → Except String String
  lookupByName : String → Option Packing
  newFromDir : String → Except String Factotum
  sshdir : Except String String

/-- The secrets-directory resolution of `InitConfig` (lines 179-191):
an explicit `secrets` entry of `other` must be a string, else a fatal
type error; an empty or missing value falls back to the external
`.ssh` directory, whose failure is fatal. -/
def secretsDirOf (ext : Collaborators) (other : List (String × YVal)) :
    Except String String :=
  match olookup other secrets with
  | some (YVal.str s) =>
    if s = "" then
      match ext.sshdir with
      | Except.error e => Except.error ("cannot find .ssh directory: " ++ e)
      | Except.ok d => Except.ok d
    else Except.ok s
  | some _ => Except.error "invalid type for secrets"
  | none =>
    match ext.sshdir with
    | Except.error e => Except.error ("cannot find .ssh directory: " ++ e)
    | Except.ok d => Except.ok d

/-- The factotum step of `InitConfig` (lines 192-202): the literal
`none` skips key-material loading and records the `ErrNoFactotum`
sentinel as the pending error; otherwise a loader failure is fatal and
success installs the factotum with no pending error. -/
def factotumStep (ext : Collaborators) (cfg : Config) (dir : String) :
    Except String (Config × Option CfgErr) :=
  if dir = "none" then Except.ok (cfg, some CfgErr.noFactotum)
  else
    match ext.newFromDir dir with
    | Except.error e => Except.error e
    | Except.ok f => Except.ok (SetFactotum cfg (some f), none)

/-- The endpoint step of `InitConfig` (lines 204-206): parse and
install the three endpoints in the order keyserver, storeserver,
dirserver, threading the single first-error slot through all three
calls. -/
def endpointPhase (vals : List (String × String)) (cfg : Config)
    (err : Option CfgErr) : Config × Option CfgErr :=
  let pk := parseEndpoint vals keyserver err
  let ps := parseEndpoint vals storeserver pk.2
  let pd := parseEndpoint vals dirserver ps.2
  (SetDirEndpoint (SetStoreEndpoint (SetKeyEndpoint cfg pk.1) ps.1) pd.1, pd.2)

/-- Keep the first error: the discipline of the `errorp` slot. -/
def firstSome (a b : Option CfgErr) : Option CfgErr :=
  match a with
  | some x => some x
  | none => b

/-- `InitConfig` (initconfig.go lines 129-223) from the decoded
document onward: the reader, `ioutil.ReadAll` and the byte-level
`yaml.Unmarshal` are external, so the document arrives as the decoded
association list.  Fatal failures return `Except.error`; the non-fatal
first error (the no-factotum sentinel or an endpoint parse failure) is
returned alongside the configuration. -/
def InitConfig (ext : Collaborators) (doc : List (String × YVal)) :
    Except String (Config × Option CfgErr) :=
  match valsFromYAML initVals [] doc with
  | Except.error e => Except.error e
  | Except.ok (vals, other) =>
    match ext.clean (lookupOr vals username) with
    | Except.error e => Except.error e
    | Except.ok u =>
      match ext.lookupByName (lookupOr vals packing) with
      | none => Except.error ("unknown packing " ++ lookupOr vals packing)
      | some p =>
        match secretsDirOf ext other with
        | Except.error e => Except.error e
        | Except.ok dir =>
          match factotumStep ext (SetPacking (SetUserName Config.base u) p) dir with
          | Except.error e => Except.error e
          | Except.ok (cfg3, err0) =>
            let r := endpointPhase vals cfg3 err0
            Except.ok (Config.valueMap (buildValueMap other) r.1, r.2)

/-- One registered flag of the external `flag` registry: its name, its
live value (`f.Value.String()`) and its registered default
(`f.DefValue`). -/
structure FlagEntry where
  name : String
  value : String
  defValue : String
  deriving DecidableEq, Repr

/-- The external `flag` registry as a capability: the registered flags,
plus the predicate saying whether the registry's own `Set` call parses
a given value for a given flag — a failed `flag.Set` leaves the flag
unchanged and reports an error. -/
structure FlagReg where
  flags : List FlagEntry
  canSet : String → String → Bool

/-- `flag.Lookup(name)`. -/
def lookupFlag (reg : FlagReg) (n : String) : Option FlagEntry :=
  reg.flags.find? (fun f => f.name = n)

/-- A successful `flag.Set(name, val)`: the named flag's live value
becomes `val`. -/
def setFlag (reg : FlagReg) (n v : String) : FlagReg :=
  ⟨reg.flags.map (fun f => if f.name = n then ⟨f.name, v, f.defValue⟩ else f),
   reg.canSet⟩

/-- The errors `SetFlagValues` can return. -/
inductive FlagsErr where
  | badCmdflags (msg : String)
  | badCmdflagsFor (cmd : String)
  | badFlagName
  | badFlagValue (name : String)
  | unknownFlag (name : String)
  deriving DecidableEq, Repr

/-- Interface equality of a decoded key against a string, as the Go
map read `cmdflags[cmd]` performs it. -/
def isStrEq : YVal → String → Bool
  | YVal.str s, t => s = t
  | _, _ => false

/-- `cmdflags[cmd].(map[interface]interface)` (line 464): look the
command name up among the decoded keys and require the value to be a
mapping; a missing entry or a non-mapping value both fail. -/
def ylookupMap (m : List (YVal × YVal)) (cmd : String) :
    Option (List (YVal × YVal)) :=
  match (m.find? (fun p => isStrEq p.1 cmd)).map (fun p => p.2) with
  | some (YVal.map flags) => some flags
  | _ => none

/-- The `for k, v := range flags` loop of `SetFlagValues` (lines
468-488): resolve the entry's key and value to strings (a failure is
fatal for the call), look the name up in the registry (unknown is
fatal for the call), skip flags whose live value left their default,
and apply `flag.Set`, silently skipping an entry whose value fails the
registry's own parse. -/
def applyFlagsLoop (reg : FlagReg) : List (YVal × YVal) → FlagReg × Option FlagsErr
  | [] => (reg, none)
  | (k, v) :: rest =>
    match asString k with
    | Except.error _ => (reg, some FlagsErr.badFlagName)
    | Except.ok name =>
      match asString v with
      | Except.error _ => (reg, some (FlagsErr.badFlagValue name))
      | Except.ok val =>
        match lookupFlag reg name with
        | none => (reg, some (FlagsErr.unknownFlag name))
        | some f =>
          if f.value ≠ f.defValue then applyFlagsLoop reg rest
          else if reg.canSet name val then applyFlagsLoop (setFlag reg name val) rest
          else applyFlagsLoop reg rest

/-- `SetFlagValues` (initconfig.go lines 453-490).  The YAML decode of
the `cmdflags` value is the external `yaml.Unmarshal`, supplied as a
capability; an empty `cmdflags` value is an immediate no-op success. -/
def SetFlagValues (unmarshal : String → Except String (List (YVal × YVal)))
    (cfg : Config) (cmd : String) (reg : FlagReg) : FlagReg × Option FlagsErr :=
  if cfg.Value "cmdflags" = "" then (reg, none)
  else
    match unmarshal (cfg.Value "cmdflags") with
    | Except.error e => (reg, some (FlagsErr.badCmdflags e))
    | Except.ok cmdflags =>
      match ylookupMap cmdflags cmd with
      | some flags => applyFlagsLoop reg flags
      | none => (reg, some (FlagsErr.badCmdflagsFor cmd))

/-- Concrete collaborators for evaluating `InitConfig` at witness
inputs: canonicalization is the identity, only the default `ee`
packing is known, key-material loading always succeeds, and the
conventional secrets directory exists. -/
def testExt : Collaborators where
  clean := fun s => Except.ok s
  lookupByName := fun s => if s = "ee" then some Packing.eePack else none
  newFromDir := fun d => Except.ok d
  sshdir := Except.ok "/home/user/.ssh"

/-- The document of the C4 counterexample: `secrets: none` together
with a malformed `keyserver` value. -/
def c4doc : List (String × YVal) :=
  [(secrets, YVal.str "none"), (keyserver, YVal.str "bad,x")]

/-- A vals table with a malformed dirserver and valid keyserver and
storeserver values. -/
def c4vals : List (String × String) :=
  [(keyserver, "remote,k.example.com:443"), (storeserver, "s.example.com"),
   (dirserver, "zz,bad")]

/-- The C5 witness document: `secrets: none` plus a store server. -/
def c5doc : List (String × YVal) :=
  [(secrets, YVal.str "none"), (storeserver, YVal.str "store.example.com")]

/-- The vals table `valsFromYAML` produces for `c5doc`: the defaults
with the store server overwritten. -/
def c5vals : List (String × String) :=
  [(username, defaultUserName),
   (packing, defaultPacking.goName),
   (keyserver, defaultKeyEndpoint.goString),
   (dirserver, ""),
   (storeserver, "store.example.com")]

/-- The configuration component of a loader result (the base
configuration when loading failed), for naming the configuration a
concrete `InitConfig` run returns. -/
def getCfg : Except String (Config × Option CfgErr) → Config
  | Except.ok q => q.1
  | Except.error _ => Config.base

/-- The non-fatal error component of a loader result. -/
def getErr : Except String (Config × Option CfgErr) → Option CfgErr
  | Except.ok q => q.2
  | Except.error _ => none

/-- The C6 counterexample document: just `secrets: none`. -/
def c6doc : List (String × YVal) := [(secrets, YVal.str "none")]

/-- The C6 witness document: a secrets entry next to an unknown
extension key. -/
def c6doc2 : List (String × YVal) :=
  [(secrets, YVal.str "none"), ("foo", YVal.int 42)]

/-- A registry for the C7 witness: a boolean flag still at its default
next to a flag already changed on the command line; every value
parses. -/
def reg7 : FlagReg :=
  ⟨[⟨"verbose", "false", "false"⟩, ⟨"level", "3", "1"⟩], fun _ _ => true⟩

/-- A configuration carrying a non-empty `cmdflags` value. -/
def cfg7 : Config := SetValue Config.base "cmdflags" "yamltext"

/-- A decode capability returning `mycmd` mapped to one flag entry. -/
def um7 : String → Except String (List (YVal × YVal)) :=
  fun _ => Except.ok
    [(YVal.str "mycmd", YVal.map [(YVal.str "verbose", YVal.str "true")])]

/-- A registry for the C8 witness whose `Set` always fails. -/
def reg8 : FlagReg := ⟨[⟨"a", "1", "1"⟩], fun _ _ => false⟩

/-- A decode capability for the C10 witness: the decoded mapping has an
entry only for a different command. -/
def um10 : String → Except String (List (YVal × YVal)) :=
  fun _ => Except.ok [(YVal.str "othercmd", YVal.map [])]

theorem splitFirstComma_eq_none (l : List Char) (h : l.contains ',' = false) :
    splitFirstComma l = none := by
  induction l with
  | nil => rfl
  | cons c rest ih =>
    rw [List.contains_cons, Bool.or_eq_false_iff] at h
    have hc : ¬ c = ',' := by
      intro hcc
      rw [hcc] at h
      simp at h
    simp [splitFirstComma, hc, ih h.2]

theorem splitFirstComma_remote_prefixed (l : List Char) :
    splitFirstComma ("remote,".data ++ l) = some ("remote".data, l) := by
  rfl

theorem ParseEndpoint_no_comma (text : String) (h : containsChar text ',' = false) :
    ParseEndpoint text = Except.error ("unknown transport type in endpoint " ++ text) := by
  unfold ParseEndpoint
  rw [splitFirstComma_eq_none text.data h]

theorem ParseEndpoint_remote_retry (text : String) :
    ParseEndpoint ("remote," ++ text) = Except.ok ⟨Transport.remote, text⟩ := by
  unfold ParseEndpoint
  have hdata : ("remote," ++ text).data = "remote,".data ++ text.data := rfl
  rw [hdata, splitFirstComma_remote_prefixed]
  rfl

theorem firstSome_assoc (a b c : Option CfgErr) :
    firstSome (firstSome a b) c = firstSome a (firstSome b c) := by
  cases a <;> rfl

theorem parseEndpoint_threading (vals : List (String × String)) (key : String)
    (e : Option CfgErr) :
    parseEndpoint vals key e
      = ((parseEndpoint vals key none).1,
          firstSome e (parseEndpoint vals key none).2) := by
  unfold parseEndpoint
  rcases alookup vals key with _ | text
  · cases e <;> rfl
  · by_cases ht : text = ""
    · simp only [if_pos ht]
      cases e <;> rfl
    · simp only [if_neg ht]
      rcases hp : ParseEndpoint text with msg | ep
      · by_cases hc : containsChar text ',' = true
        · simp only [hc, if_true]
          cases e <;> rfl
        · simp only [hc, if_false, Bool.false_eq_true]
          rcases hr : ParseEndpoint ("remote," ++ text) with m2 | ep2
          · cases e <;> rfl
          · by_cases hif : ep2.transport = Transport.remote
                ∧ containsChar ep2.netAddr ':' = false
            · simp only [if_pos hif]
              cases e <;> rfl
            · simp only [if_neg hif]
              cases e <;> rfl
      · by_cases hif : ep.transport = Transport.remote
            ∧ containsChar ep.netAddr ':' = false
        · simp only [if_pos hif]
          cases e <;> rfl
        · simp only [if_neg hif]
          cases e <;> rfl

theorem parseEndpoint_failed_zero (vals : List (String × String)) (key : String)
    (h : (parseEndpoint vals key none).2 ≠ none) :
    (parseEndpoint vals key none).1 = Endpoint.zero := by
  revert h
  unfold parseEndpoint
  rcases alookup vals key with _ | text
  · intro h
    exact absurd rfl h
  · by_cases ht : text = ""
    · simp only [if_pos ht]
      intro h
      exact absurd rfl h
    · simp only [if_neg ht]
      rcases hp : ParseEndpoint text with msg | ep
      · by_cases hc : containsChar text ',' = true
        · simp only [hc, if_true]
          intro _
          trivial
        · simp only [hc, if_false, Bool.false_eq_true]
          rcases hr : ParseEndpoint ("remote," ++ text) with m2 | ep2
          · intro _
            trivial
          · by_cases hif : ep2.transport = Transport.remote
                ∧ containsChar ep2.netAddr ':' = false
            · simp only [if_pos hif]
              intro h
              exact absurd rfl h
            · simp only [if_neg hif]
              intro h
              exact absurd rfl h
      · by_cases hif : ep.transport = Transport.remote
            ∧ containsChar ep.netAddr ':' = false
        · simp only [if_pos hif]
          intro h
          exact absurd rfl h
        · simp only [if_neg hif]
          intro h
          exact absurd rfl h

theorem firstSome_some (x : CfgErr) (b : Option CfgErr) :
    firstSome (some x) b = some x := rfl

theorem firstSome_none (b : Option CfgErr) : firstSome none b = b := rfl

theorem endpointPhase_fst (vals : List (String × String)) (cfg : Config)
    (e : Option CfgErr) :
    (endpointPhase vals cfg e).1
      = SetDirEndpoint
          (SetStoreEndpoint
            (SetKeyEndpoint cfg (parseEndpoint vals keyserver none).1)
            (parseEndpoint vals storeserver none).1)
          (parseEndpoint vals dirserver none).1 := by
  have t1 := parseEndpoint_threading vals keyserver e
  have t2 := parseEndpoint_threading vals storeserver
    (firstSome e (parseEndpoint vals keyserver none).2)
  have t3 := parseEndpoint_threading vals dirserver
    (firstSome (firstSome e (parseEndpoint vals keyserver none).2)
      (parseEndpoint vals storeserver none).2)
  simp only [endpointPhase, t1, t2, t3]

theorem endpointPhase_error (vals : List (String × String)) (cfg : Config)
    (e : Option CfgErr) :
    (endpointPhase vals cfg e).2
      = firstSome e
          (firstSome (parseEndpoint vals keyserver none).2
            (firstSome (parseEndpoint vals storeserver none).2
              (parseEndpoint vals dirserver none).2)) := by
  have t1 := parseEndpoint_threading vals keyserver e
  have t2 := parseEndpoint_threading vals storeserver
    (firstSome e (parseEndpoint vals keyserver none).2)
  have t3 := parseEndpoint_threading vals dirserver
    (firstSome (firstSome e (parseEndpoint vals keyserver none).2)
      (parseEndpoint vals storeserver none).2)
  simp only [endpointPhase, t1, t2, t3]
  simp only [firstSome_assoc]

theorem endpointPhase_err_some (vals : List (String × String)) (cfg : Config)
    (x : CfgErr) :
    (endpointPhase vals cfg (some x)).2 = some x := by
  rw [endpointPhase_error]
  rfl

/-- C4 corrected (amended claim): during the endpoint phase of loading
all three endpoint keys are parsed and installed independently, so a
parse failure for one never blocks the others; a failed endpoint is
installed as the unassigned sentinel; and the first parse error, in
the order keyserver, storeserver, dirserver, is remembered and
returned only when no earlier non-fatal error (the no-factotum
sentinel) was already recorded — the slot keeps whatever error came
first. -/
theorem endpoint_partial_failure (vals : List (String × String)) (cfg : Config)
    (err0 : Option CfgErr) :
    ((endpointPhase vals cfg err0).1.KeyEndpoint
        = (parseEndpoint vals keyserver none).1
      ∧ (endpointPhase vals cfg err0).1.StoreEndpoint
        = (parseEndpoint vals storeserver none).1
      ∧ (endpointPhase vals cfg err0).1.DirEndpoint
        = (parseEndpoint vals dirserver none).1)
    ∧ (∀ key, (parseEndpoint vals key none).2 ≠ none →
        (parseEndpoint vals key none).1 = Endpoint.zero)
    ∧ (endpointPhase vals cfg err0).2
        = firstSome err0
            (firstSome (parseEndpoint vals keyserver none).2
              (firstSome (parseEndpoint vals storeserver none).2
                (parseEndpoint vals dirserver none).2)) := by
  refine ⟨⟨?_, ?_, ?_⟩, fun key h => parseEndpoint_failed_zero vals key h, ?_⟩
  · rw [endpointPhase_fst]
    exact rfl
  · rw [endpointPhase_fst]
    exact rfl
  · rw [endpointPhase_fst]
    exact rfl
  · exact endpointPhase_error vals cfg err0

/-- Witness for the amended C4 at a concrete vals table: a malformed
dirserver next to valid keyserver and storeserver values installs both
good endpoints, installs the unassigned sentinel for the dirserver,
and returns the dirserver parse error. -/
theorem endpoint_partial_failure_witness :
    (endpointPhase c4vals Config.base none).1.KeyEndpoint
      = ⟨Transport.remote, "k.example.com:443"⟩
    ∧ (endpointPhase c4vals Config.base none).1.StoreEndpoint
      = ⟨Transport.remote, "s.example.com:443"⟩
    ∧ (endpointPhase c4vals Config.base none).1.DirEndpoint = Endpoint.zero
    ∧ (endpointPhase c4vals Config.base none).2
      = some (CfgErr.parseService "zz,bad") := by
  refine ⟨?_, ?_, ?_, ?_⟩
  · rw [(endpoint_partial_failure c4vals Config.base none).1.1]
    rfl
  · rw [(endpoint_partial_failure c4vals Config.base none).1.2.1]
    rfl
  · rw [(endpoint_partial_failure c4vals Config.base none).1.2.2,
      (endpoint_partial_failure c4vals Config.base none).2.1 dirserver (by decide)]
  · rw [(endpoint_partial_failure c4vals Config.base none).2.2]
    rfl

/-- C4 counterexample: loading `c4doc` hits an endpoint parse failure
(the key endpoint comes out as the unassigned sentinel), yet the error
returned alongside the configuration is the no-factotum sentinel
recorded earlier, not the first endpoint parse error the claim
promises. -/
theorem first_parse_error_counterexample :
    (InitConfig testExt c4doc).map (fun p => (p.1.KeyEndpoint, p.2))
      = Except.ok (Endpoint.zero, some CfgErr.noFactotum)
    ∧ some CfgErr.noFactotum ≠ some (CfgErr.parseService "bad,x") := by
  constructor
  · rfl
  · decide

/-- C5: when the secrets value of the loaded document resolves to the
literal `none`, loading skips key-material loading and returns a
configuration together with the distinguished no-factotum sentinel
error; the configuration has no factotum, and its username, packing
and all three endpoints are still populated from the document. -/
theorem secrets_none_sentinel (ext : Collaborators) (doc : List (String × YVal))
    (vals : List (String × String)) (other : List (String × YVal))
    (u : String) (p : Packing)
    (hv : valsFromYAML initVals [] doc = Except.ok (vals, other))
    (hs : olookup other secrets = some (YVal.str "none"))
    (hc : ext.clean (lookupOr vals username) = Except.ok u)
    (hp : ext.lookupByName (lookupOr vals packing) = some p) :
    ∃ c : Config,
      InitConfig ext doc = Except.ok (c, some CfgErr.noFactotum)
      ∧ c.Factotum = none
      ∧ c.UserName = u
      ∧ c.Packing = p
      ∧ c.KeyEndpoint = (parseEndpoint vals keyserver none).1
      ∧ c.StoreEndpoint = (parseEndpoint vals storeserver none).1
      ∧ c.DirEndpoint = (parseEndpoint vals dirserver none).1 := by
  have hsd : secretsDirOf ext other = Except.ok "none" := by
    rw [secretsDirOf, hs]
    rfl
  have hfs : factotumStep ext (SetPacking (SetUserName Config.base u) p) "none"
      = Except.ok (SetPacking (SetUserName Config.base u) p,
          some CfgErr.noFactotum) := rfl
  refine ⟨Config.valueMap (buildValueMap other)
      (endpointPhase vals (SetPacking (SetUserName Config.base u) p)
        (some CfgErr.noFactotum)).1, ?_, ?_, ?_, ?_, ?_, ?_, ?_⟩
  · simp only [InitConfig, hv, hc, hp, hsd, hfs]
    rw [endpointPhase_err_some]
  · rw [endpointPhase_fst]
    exact rfl
  · rw [endpointPhase_fst]
    exact rfl
  · rw [endpointPhase_fst]
    exact rfl
  · rw [endpointPhase_fst]
    exact rfl
  · rw [endpointPhase_fst]
    exact rfl
  · rw [endpointPhase_fst]
    exact rfl

/-- Witness for C5 at a concrete document: `secrets: none` with a
store server yields the no-factotum sentinel next to a configuration
carrying the default username, the default packing and the document's
endpoints. -/
theorem secrets_none_sentinel_witness :
    ∃ c : Config,
      InitConfig testExt c5doc = Except.ok (c, some CfgErr.noFactotum)
      ∧ c.Factotum = none
      ∧ c.UserName = "noone@nowhere.org"
      ∧ c.Packing = Packing.eePack
      ∧ c.KeyEndpoint = (parseEndpoint c5vals keyserver none).1
      ∧ c.StoreEndpoint = (parseEndpoint c5vals storeserver none).1
      ∧ c.DirEndpoint = (parseEndpoint c5vals dirserver none).1 :=
  secrets_none_sentinel testExt c5doc c5vals [(secrets, YVal.str "none")]
    "noone@nowhere.org" Packing.eePack (by rfl) (by rfl) (by rfl) (by rfl)

theorem alookup_cons (a b : String) (t : List (String × String)) (k : String) :
    alookup ((a, b) :: t) k = if a = k then some b else alookup t k := by
  by_cases h : a = k <;> simp [alookup, List.find?, h]

theorem olookup_cons (a : String) (v : YVal) (t : List (String × YVal)) (k : String) :
    olookup ((a, v) :: t) k = if a = k then some v else olookup t k := by
  by_cases h : a = k <;> simp [olookup, List.find?, h]

theorem alookup_aupdate_isNone (m : List (String × String)) (k s k' : String) :
    (alookup (aupdate m k s) k').isNone = (alookup m k').isNone := by
  induction m with
  | nil => rfl
  | cons q rest ih =>
    obtain ⟨a, b⟩ := q
    rw [show aupdate ((a, b) :: rest) k s
        = (if a = k then (a, s) else (a, b)) :: aupdate rest k s from rfl]
    by_cases hak : a = k
    · rw [if_pos hak, alookup_cons, alookup_cons]
      by_cases hk : a = k'
      · simp [hk]
      · simp [hk, ih]
    · rw [if_neg hak, alookup_cons, alookup_cons]
      by_cases hk : a = k'
      · simp [hk]
      · simp [hk, ih]

theorem valsFromYAML_other (doc : List (String × YVal)) :
    ∀ (vals : List (String × String)) (acc : List (String × YVal))
      (vals' : List (String × String)) (other : List (String × YVal)),
      valsFromYAML vals acc doc = Except.ok (vals', other) →
      other = acc ++ doc.filter (fun q => (alookup vals q.1).isNone) := by
  induction doc with
  | nil =>
    intro vals acc vals' other h
    simp only [valsFromYAML, Except.ok.injEq, Prod.mk.injEq] at h
    rw [← h.2]
    simp
  | cons q rest ih =>
    obtain ⟨k, v⟩ := q
    intro vals acc vals' other h
    simp only [valsFromYAML] at h
    by_cases hk : (alookup vals k).isSome = true
    · rw [if_pos hk] at h
      rcases ha : asString v with m | s
      · rw [ha] at h
        exact Except.noConfusion h
      · rw [ha] at h
        have hrec := ih (aupdate vals k s) acc vals' other h
        have hnone : (alookup vals k).isNone = false := by
          rcases halo : alookup vals k with _ | w
          · rw [halo] at hk
            exact Bool.noConfusion hk
          · rfl
        rw [hrec, List.filter_cons]
        simp only [hnone, Bool.false_eq_true, if_false]
        congr 1
        exact List.filter_congr (fun x _ => alookup_aupdate_isNone vals k s x.1)
    · rw [if_neg hk] at h
      have hrec := ih vals (acc ++ [(k, v)]) vals' other h
      have hnone : (alookup vals k).isNone = true := by
        rcases halo : alookup vals k with _ | w
        · rfl
        · rw [halo] at hk
          exact absurd rfl hk
      rw [hrec, List.filter_cons]
      simp [hnone]

theorem alookup_buildValueMap (other : List (String × YVal)) (k : String) :
    alookup (buildValueMap other) k = (olookup other k).map yamlMarshal := by
  induction other with
  | nil => rfl
  | cons q rest ih =>
    obtain ⟨a, v⟩ := q
    rw [show buildValueMap ((a, v) :: rest)
        = (a, yamlMarshal v) :: buildValueMap rest from rfl,
      alookup_cons, olookup_cons]
    by_cases h : a = k
    · simp [h]
    · simp [h, ih]

/-- C6 corrected (amended claim): the extension value bag consulted by
`Value` is derived exactly from the document keys outside the seeded
known-key set, which is {username, keyserver, dirserver, storeserver,
packing} — `secrets` is NOT among the seeded keys, so a document
secrets entry does enter the bag, and `Value` at `secrets` on the
returned configuration yields the document's secrets value rather than
the empty string. -/
theorem extension_bag_amended (ext : Collaborators) (doc : List (String × YVal))
    (vals : List (String × String)) (other : List (String × YVal))
    (c : Config) (e : Option CfgErr)
    (hv : valsFromYAML initVals [] doc = Except.ok (vals, other))
    (hi : InitConfig ext doc = Except.ok (c, e)) :
    (∀ k, c.Value k = lookupOr (buildValueMap other) k)
    ∧ other = doc.filter (fun q => (alookup initVals q.1).isNone)
    ∧ alookup initVals secrets = none
    ∧ (∀ s, olookup other secrets = some (YVal.str s) → c.Value secrets = s) := by
  have hval : ∀ k, c.Value k = lookupOr (buildValueMap other) k := by
    unfold InitConfig at hi
    rw [hv] at hi
    dsimp only at hi
    rcases h1 : ext.clean (lookupOr vals username) with e1 | u
    · rw [h1] at hi
      exact Except.noConfusion hi
    · rw [h1] at hi
      dsimp only at hi
      rcases h2 : ext.lookupByName (lookupOr vals packing) with _ | p
      · rw [h2] at hi
        exact Except.noConfusion hi
      · rw [h2] at hi
        dsimp only at hi
        rcases h3 : secretsDirOf ext other with e3 | dir
        · rw [h3] at hi
          exact Except.noConfusion hi
        · rw [h3] at hi
          dsimp only at hi
          by_cases hd : dir = "none"
          · simp only [factotumStep, if_pos hd, Except.ok.injEq,
              Prod.mk.injEq] at hi
            obtain ⟨hc', he'⟩ := hi
            subst hc'
            intro k
            rw [endpointPhase_fst]
            cases halo : alookup (buildValueMap other) k with
            | some v =>
              simp [Config.Value, lookupOr, halo]
            | none =>
              simp [Config.Value, lookupOr, halo, SetDirEndpoint,
                SetStoreEndpoint, SetKeyEndpoint, SetPacking, SetUserName]
          · simp only [factotumStep, if_neg hd] at hi
            rcases h4 : ext.newFromDir dir with e4 | f
            · rw [h4] at hi
              exact Except.noConfusion hi
            · rw [h4] at hi
              simp only [Except.ok.injEq, Prod.mk.injEq] at hi
              obtain ⟨hc', he'⟩ := hi
              subst hc'
              intro k
              rw [endpointPhase_fst]
              cases halo : alookup (buildValueMap other) k with
              | some v =>
                simp [Config.Value, lookupOr, halo]
              | none =>
                simp [Config.Value, lookupOr, halo, SetDirEndpoint,
                  SetStoreEndpoint, SetKeyEndpoint, SetFactotum, SetPacking,
                  SetUserName]
  have hother : other = doc.filter (fun q => (alookup initVals q.1).isNone) := by
    have h := valsFromYAML_other doc initVals [] vals other hv
    simpa using h
  refine ⟨hval, hother, rfl, ?_⟩
  intro s hs
  rw [hval secrets, lookupOr, alookup_buildValueMap, hs]
  rfl

/-- Witness for the amended C6 at a concrete document: with
`secrets: none` and `foo: 42`, both entries land in the bag (both keys
are outside the seeded set) and the returned configuration answers
`none` for the secrets key. -/
theorem extension_bag_amended_witness :
    c6doc2 = c6doc2.filter (fun q => (alookup initVals q.1).isNone)
    ∧ alookup initVals secrets = none
    ∧ (getCfg (InitConfig testExt c6doc2)).Value secrets = "none" :=
  have h := extension_bag_amended testExt c6doc2 initVals c6doc2
    (getCfg (InitConfig testExt c6doc2)) (getErr (InitConfig testExt c6doc2))
    (by rfl) (by rfl)
  ⟨h.2.1, h.2.2.1, h.2.2.2 "none" (by rfl)⟩

/-- C6 counterexample: loading a document whose only entry is
`secrets: none` yields a configuration whose `Value` at the secrets
key is the document's value `none`, not the empty string the claim
promises — the secrets entry does enter the extension bag. -/
theorem secrets_value_counterexample :
    (InitConfig testExt c6doc).map (fun q => q.1.Value secrets)
      = Except.ok "none"
    ∧ "none" ≠ "" := by
  constructor
  · rfl
  · decide

/-- C3: the endpoint parser maps a missing key or empty text to the
unassigned endpoint with empty address and no error; a bare address
with no comma to a remote endpoint, with `:443` appended exactly when
the address has no colon (so an explicit port is preserved);
`remote,example.com` to the remote endpoint `example.com:443`; and
`inprocess,` to the inprocess endpoint with empty address. -/
theorem endpoint_defaulting (vals : List (String × String)) (key text : String)
    (e : Option CfgErr) :
    (alookup vals key = none → parseEndpoint vals key e = (Endpoint.zero, e))
    ∧ (alookup vals key = some "" → parseEndpoint vals key e = (Endpoint.zero, e))
    ∧ (alookup vals key = some text → text ≠ "" → containsChar text ',' = false →
        parseEndpoint vals key e =
          (⟨Transport.remote, if containsChar text ':' then text else text ++ ":443"⟩, e))
    ∧ (alookup vals key = some "remote,example.com" →
        parseEndpoint vals key e = (⟨Transport.remote, "example.com:443"⟩, e))
    ∧ (alookup vals key = some "inprocess," →
        parseEndpoint vals key e = (⟨Transport.inProcess, ""⟩, e)) := by
  refine ⟨?_, ?_, ?_, ?_, ?_⟩
  · intro h
    simp [parseEndpoint, h]
  · intro h
    simp [parseEndpoint, h]
  · intro h hne hcomma
    simp only [parseEndpoint, h, if_neg hne, ParseEndpoint_no_comma text hcomma,
      hcomma, ParseEndpoint_remote_retry text, Bool.false_eq_true, if_false]
    by_cases hc : containsChar text ':' = true
    · simp [hc]
    · simp [hc]
  · intro h
    simp only [parseEndpoint, h]
    rfl
  · intro h
    simp only [parseEndpoint, h]
    rfl

/-- Witness for C3 at concrete inputs: a vals table carrying
`example.com` under `keyserver` takes the bare-address branch and
yields `remote,example.com:443`, and a missing `dirserver` key yields
the unassigned zero endpoint. -/
theorem endpoint_defaulting_witness :
    parseEndpoint [("keyserver", "example.com")] "keyserver" none
      = (⟨Transport.remote, "example.com:443"⟩, none)
    ∧ parseEndpoint [("keyserver", "example.com")] "dirserver" none
      = (Endpoint.zero, none) := by
  constructor
  · have h := (endpoint_defaulting [("keyserver", "example.com")] "keyserver"
      "example.com" none).2.2.1 (by rfl) (by decide) (by decide)
    rw [h]
    rfl
  · exact (endpoint_defaulting [("keyserver", "example.com")] "dirserver"
      "example.com" none).1 (by rfl)

theorem alookup_aupdate_self (m : List (String × String)) (k s : String)
    (h : (alookup m k).isSome) : alookup (aupdate m k s) k = some s := by
  induction m with
  | nil => simp [alookup] at h
  | cons p rest ih =>
    by_cases hk : p.1 = k
    · simp [alookup, aupdate, List.find?, hk]
    · have h1 : alookup (p :: rest) k = alookup rest k := by
        simp [alookup, List.find?, hk]
      have h2 : aupdate (p :: rest) k s = p :: aupdate rest k s := by
        simp [aupdate, hk]
      have h3 : alookup (p :: aupdate rest k s) k = alookup (aupdate rest k s) k := by
        simp [alookup, List.find?, hk]
      rw [h2, h3]
      exact ih (h1 ▸ h)

/-- C9: the scalar source resolver coerces a numeric, boolean or string
value for a known key to its string form and overwrites that default;
a non-scalar value for a known key is a hard error carrying the key;
and a key absent from the known defaults passes verbatim, whatever its
type, into the other-values bag without an error. -/
theorem scalar_source_resolver (vals : List (String × String))
    (other : List (String × YVal)) (k s : String) (v : YVal)
    (rest : List (String × YVal)) (n : Int) (b : Bool)
    (l : List (YVal × YVal)) :
    (asString (YVal.int n) = Except.ok (toString n)
      ∧ asString (YVal.bool b) = Except.ok (if b then "true" else "false")
      ∧ asString (YVal.str s) = Except.ok s
      ∧ asString (YVal.map l) = Except.error "unrecognized value")
    ∧ ((alookup vals k).isSome → asString v = Except.ok s →
        valsFromYAML vals other ((k, v) :: rest)
          = valsFromYAML (aupdate vals k s) other rest
        ∧ alookup (aupdate vals k s) k = some s)
    ∧ ((alookup vals k).isSome → ∀ m, asString v = Except.error m →
        valsFromYAML vals other ((k, v) :: rest) = Except.error (k ++ ": " ++ m))
    ∧ (alookup vals k = none →
        valsFromYAML vals other ((k, v) :: rest)
          = valsFromYAML vals (other ++ [(k, v)]) rest) := by
  refine ⟨⟨rfl, rfl, rfl, rfl⟩, ?_, ?_, ?_⟩
  · intro hk hv
    exact ⟨by simp [valsFromYAML, hk, hv], alookup_aupdate_self vals k s hk⟩
  · intro hk m hv
    simp [valsFromYAML, hk, hv]
  · intro hk
    simp [valsFromYAML, hk]

/-- Witness for C9 at concrete inputs: an integer for the known
`username` key overwrites its default with `42`; a mapping for it is a
hard error; the unknown key `foo` passes through verbatim. -/
theorem scalar_source_resolver_witness :
    (valsFromYAML [("username", "u")] [] [("username", YVal.int 42)]
        = valsFromYAML (aupdate [("username", "u")] "username" "42") [] []
      ∧ alookup (aupdate [("username", "u")] "username" "42") "username" = some "42")
    ∧ valsFromYAML [("username", "u")] [] [("username", YVal.map [])]
        = Except.error ("username" ++ ": " ++ "unrecognized value")
    ∧ valsFromYAML [("username", "u")] [] [("foo", YVal.bool true)]
        = valsFromYAML [("username", "u")] ([] ++ [("foo", YVal.bool true)]) [] :=
  ⟨(scalar_source_resolver [("username", "u")] [] "username" "42" (YVal.int 42)
      [] 42 true []).2.1 (by decide) (by rfl),
   (scalar_source_resolver [("username", "u")] [] "username" "42" (YVal.map [])
      [] 42 true []).2.2.1 (by decide) "unrecognized value" (by rfl),
   (scalar_source_resolver [("username", "u")] [] "foo" "42" (YVal.bool true)
      [] 42 true []).2.2.2 (by decide)⟩

theorem find_name_nodup (l : List FlagEntry) (f : FlagEntry)
    (hnd : (l.map FlagEntry.name).Nodup) (hf : f ∈ l) :
    l.find? (fun g => g.name = f.name) = some f := by
  induction l with
  | nil => cases hf
  | cons g rest ih =>
    rcases List.mem_cons.mp hf with rfl | hmem
    · simp [List.find?]
    · rw [List.map_cons, List.nodup_cons] at hnd
      have hgf : ¬ g.name = f.name := by
        intro hEq
        exact hnd.1 (hEq ▸ List.mem_map_of_mem FlagEntry.name hmem)
      simp only [List.find?, decide_eq_false hgf]
      exact ih hnd.2 hmem

theorem setFlag_names (reg : FlagReg) (n v : String) :
    (setFlag reg n v).flags.map FlagEntry.name = reg.flags.map FlagEntry.name := by
  simp only [setFlag, List.map_map]
  apply List.map_congr_left
  intro f _
  by_cases h : f.name = n <;> simp [h]

theorem lookupFlag_name (reg : FlagReg) (n : String) (f : FlagEntry)
    (h : lookupFlag reg n = some f) : f.name = n := by
  have hp := List.find?_some h
  simpa using hp

theorem find_setFlag (l : List FlagEntry) (n v : String) (f : FlagEntry)
    (h : l.find? (fun g => g.name = n) = some f) :
    (l.map (fun g => if g.name = n then (⟨g.name, v, g.defValue⟩ : FlagEntry) else g)).find?
        (fun g => g.name = n) = some ⟨f.name, v, f.defValue⟩ := by
  induction l with
  | nil => exact Option.noConfusion h
  | cons g rest ih =>
    by_cases hg : g.name = n
    · simp only [List.find?, decide_eq_true hg] at h
      obtain rfl : g = f := by injection h
      rw [List.map_cons, if_pos hg]
      simp [List.find?, hg]
    · simp only [List.find?, decide_eq_false hg] at h
      rw [List.map_cons, if_neg hg]
      simp only [List.find?, decide_eq_false hg]
      exact ih h

theorem lookupFlag_setFlag (reg : FlagReg) (n v : String) (f : FlagEntry)
    (h : lookupFlag reg n = some f) :
    lookupFlag (setFlag reg n v) n = some ⟨f.name, v, f.defValue⟩ :=
  find_setFlag reg.flags n v f h

theorem applyFlagsLoop_preserves (l : List (YVal × YVal)) :
    ∀ (reg : FlagReg) (f : FlagEntry),
      (reg.flags.map FlagEntry.name).Nodup → f ∈ reg.flags →
      f.value ≠ f.defValue →
      f ∈ (applyFlagsLoop reg l).1.flags := by
  induction l with
  | nil =>
    intro reg f _ hf _
    exact hf
  | cons q rest ih =>
    obtain ⟨k, v⟩ := q
    intro reg f hnd hf hne
    rcases hk : asString k with m | name
    · simp only [applyFlagsLoop, hk]
      exact hf
    · rcases hv : asString v with m2 | val
      · simp only [applyFlagsLoop, hk, hv]
        exact hf
      · rcases hl : lookupFlag reg name with _ | g
        · simp only [applyFlagsLoop, hk, hv, hl]
          exact hf
        · by_cases hgd : g.value ≠ g.defValue
          · simp only [applyFlagsLoop, hk, hv, hl, if_pos hgd]
            exact ih reg f hnd hf hne
          · by_cases hcs : reg.canSet name val = true
            · simp only [applyFlagsLoop, hk, hv, hl, if_neg hgd, if_pos hcs]
              have hfn : ¬ f.name = name := by
                intro hEq
                have hff : lookupFlag reg f.name = some f :=
                  find_name_nodup reg.flags f hnd hf
                rw [hEq, hl] at hff
                have hg : g = f := by injection hff
                rw [hg] at hgd
                exact hgd hne
              refine ih (setFlag reg name val) f ?_ ?_ hne
              · rw [setFlag_names]
                exact hnd
              · have hfix : (if f.name = name
                    then (⟨f.name, val, f.defValue⟩ : FlagEntry) else f) = f :=
                  if_neg hfn
                exact hfix ▸ List.mem_map_of_mem _ hf
            · simp only [applyFlagsLoop, hk, hv, hl, if_neg hgd, if_neg hcs]
              exact ih reg f hnd hf hne

theorem applyFlagsLoop_append (l1 : List (YVal × YVal)) :
    ∀ (l2 : List (YVal × YVal)) (reg reg' : FlagReg),
      applyFlagsLoop reg l1 = (reg', none) →
      applyFlagsLoop reg (l1 ++ l2) = applyFlagsLoop reg' l2 := by
  induction l1 with
  | nil =>
    intro l2 reg reg' h
    simp only [applyFlagsLoop] at h
    injection h with h1 h2
    rw [List.nil_append, h1]
  | cons q rest ih =>
    obtain ⟨k, v⟩ := q
    intro l2 reg reg' h
    rcases hk : asString k with m | name
    · simp only [applyFlagsLoop, hk] at h
      simp at h
    · rcases hv : asString v with m2 | val
      · simp only [applyFlagsLoop, hk, hv] at h
        simp at h
      · rcases hl : lookupFlag reg name with _ | g
        · simp only [applyFlagsLoop, hk, hv, hl] at h
          simp at h
        · by_cases hgd : g.value ≠ g.defValue
          · simp only [applyFlagsLoop, hk, hv, hl, if_pos hgd] at h
            simp only [applyFlagsLoop, List.cons_append, hk, hv, hl, if_pos hgd]
            exact ih l2 reg reg' h
          · by_cases hcs : reg.canSet name val = true
            · simp only [applyFlagsLoop, hk, hv, hl, if_neg hgd, if_pos hcs] at h
              simp only [applyFlagsLoop, List.cons_append, hk, hv, hl,
                if_neg hgd, if_pos hcs]
              exact ih l2 (setFlag reg name val) reg' h
            · simp only [applyFlagsLoop, hk, hv, hl, if_neg hgd, if_neg hcs] at h
              simp only [applyFlagsLoop, List.cons_append, hk, hv, hl,
                if_neg hgd, if_neg hcs]
              exact ih l2 reg reg' h

/-- C7: `SetFlagValues` overrides a registered flag with the
configuration-file value only when the flag's live value still equals
its registered default.  Part one: every flag whose live value already
differs from its default survives the whole call untouched.  Part two:
a flag still at its default that the command's entry names is set to
the configured value. -/
theorem flag_precedence (unmarshal : String → Except String (List (YVal × YVal)))
    (cfg : Config) (cmd : String) (reg : FlagReg) (f : FlagEntry)
    (cmdflags : List (YVal × YVal)) (k v : YVal) (n val : String) :
    ((reg.flags.map FlagEntry.name).Nodup → f ∈ reg.flags →
      f.value ≠ f.defValue →
      f ∈ (SetFlagValues unmarshal cfg cmd reg).1.flags)
    ∧ (cfg.Value "cmdflags" ≠ "" →
      unmarshal (cfg.Value "cmdflags") = Except.ok cmdflags →
      ylookupMap cmdflags cmd = some [(k, v)] →
      asString k = Except.ok n → asString v = Except.ok val →
      lookupFlag reg n = some f → f.value = f.defValue →
      reg.canSet n val = true →
      SetFlagValues unmarshal cfg cmd reg = (setFlag reg n val, none)
      ∧ lookupFlag (setFlag reg n val) n = some ⟨n, val, f.defValue⟩) := by
  constructor
  · intro hnd hf hne
    by_cases h0 : cfg.Value "cmdflags" = ""
    · unfold SetFlagValues
      rw [if_pos h0]
      exact hf
    · rcases hu : unmarshal (cfg.Value "cmdflags") with msg | cf
      · simp only [SetFlagValues, if_neg h0, hu]
        exact hf
      · rcases hy : ylookupMap cf cmd with _ | fl
        · simp only [SetFlagValues, if_neg h0, hu, hy]
          exact hf
        · simp only [SetFlagValues, if_neg h0, hu, hy]
          exact applyFlagsLoop_preserves fl reg f hnd hf hne
  · intro h0 hu hy hk hv hl hfd hcs
    constructor
    · simp only [SetFlagValues, if_neg h0, hu, hy]
      simp only [applyFlagsLoop, hk, hv, hl, if_neg (not_not_intro hfd),
        if_pos hcs]
    · have hn := lookupFlag_name reg n f hl
      have hres := lookupFlag_setFlag reg n val f hl
      rw [hn] at hres
      exact hres

/-- Witness for C7 at a concrete registry: the `level` flag, already
moved off its default, survives `SetFlagValues` untouched, while the
`verbose` flag, still at its default and named in the command's entry,
is set to the configured value with no error. -/
theorem flag_precedence_witness :
    (⟨"level", "3", "1"⟩ : FlagEntry) ∈ (SetFlagValues um7 cfg7 "mycmd" reg7).1.flags
    ∧ (SetFlagValues um7 cfg7 "mycmd" reg7 = (setFlag reg7 "verbose" "true", none)
      ∧ lookupFlag (setFlag reg7 "verbose" "true") "verbose"
          = some ⟨"verbose", "true", "false"⟩) :=
  ⟨(flag_precedence um7 cfg7 "mycmd" reg7 ⟨"level", "3", "1"⟩
      [(YVal.str "verbose", YVal.str "true")] (YVal.str "verbose")
      (YVal.str "true") "verbose" "true").1
      (by decide) (by decide) (by decide),
   (flag_precedence um7 cfg7 "mycmd" reg7 ⟨"verbose", "false", "false"⟩
      [(YVal.str "mycmd", YVal.map [(YVal.str "verbose", YVal.str "true")])]
      (YVal.str "verbose")
      (YVal.str "true") "verbose" "true").2
      (by decide) (by rfl) (by rfl) (by rfl) (by rfl) (by rfl) (by rfl) (by rfl)⟩

/-- C8: meeting a flag name unknown to the registry returns an error
while the flags processed earlier in iteration order keep their applied
values (no rollback, and iteration stops); by contrast, a value that
fails the registry's own set call is silently skipped and iteration
continues. -/
theorem flag_error_policy (reg reg' : FlagReg) (l1 l2 rest : List (YVal × YVal))
    (k v : YVal) (n val : String) (f : FlagEntry) :
    (applyFlagsLoop reg l1 = (reg', none) →
      asString k = Except.ok n → asString v = Except.ok val →
      lookupFlag reg' n = none →
      applyFlagsLoop reg (l1 ++ (k, v) :: l2)
        = (reg', some (FlagsErr.unknownFlag n)))
    ∧ (asString k = Except.ok n → asString v = Except.ok val →
      lookupFlag reg n = some f → f.value = f.defValue →
      reg.canSet n val = false →
      applyFlagsLoop reg ((k, v) :: rest) = applyFlagsLoop reg rest) := by
  constructor
  · intro h hk hv hl
    rw [applyFlagsLoop_append l1 ((k, v) :: l2) reg reg' h]
    simp only [applyFlagsLoop, hk, hv, hl]
  · intro hk hv hl hfd hcs
    simp only [applyFlagsLoop, hk, hv, hl, if_neg (not_not_intro hfd), hcs,
      Bool.false_eq_true, if_false]

/-- Witness for C8 at a concrete registry: after one successfully
applied entry, an unknown flag name aborts with the unknown-flag error
while the earlier assignment survives in the returned registry; and an
entry whose value the registry refuses to set is skipped, leaving the
loop result equal to the loop on the remaining entries. -/
theorem flag_error_policy_witness :
    applyFlagsLoop reg8 [(YVal.str "zz", YVal.str "1")]
      = (reg8, some (FlagsErr.unknownFlag "zz"))
    ∧ applyFlagsLoop reg8 [(YVal.str "a", YVal.str "2")]
      = applyFlagsLoop reg8 [] :=
  ⟨(flag_error_policy reg8 reg8 [] [] [] (YVal.str "zz") (YVal.str "1")
      "zz" "1" ⟨"a", "1", "1"⟩).1 (by rfl) (by rfl) (by rfl) (by rfl),
   (flag_error_policy reg8 reg8 [] [] [] (YVal.str "a") (YVal.str "2")
      "a" "2" ⟨"a", "1", "1"⟩).2 (by rfl) (by rfl) (by rfl) (by rfl) (by rfl)⟩

/-- C10: an empty `cmdflags` value — in particular an entirely absent
key — makes `SetFlagValues` a no-op success; a non-empty value whose
decoded mapping has no entry for the given command, or an entry that is
not a mapping, makes it return the Invalid error instead of succeeding
as a no-op, the registry untouched. -/
theorem cmdflags_missing_entry
    (unmarshal : String → Except String (List (YVal × YVal)))
    (cfg : Config) (cmd : String) (reg : FlagReg)
    (cmdflags : List (YVal × YVal)) :
    (cfg.Value "cmdflags" = "" →
      SetFlagValues unmarshal cfg cmd reg = (reg, none))
    ∧ (cfg.Value "cmdflags" ≠ "" →
      unmarshal (cfg.Value "cmdflags") = Except.ok cmdflags →
      ylookupMap cmdflags cmd = none →
      SetFlagValues unmarshal cfg cmd reg
        = (reg, some (FlagsErr.badCmdflagsFor cmd))) := by
  constructor
  · intro h0
    unfold SetFlagValues
    rw [if_pos h0]
  · intro h0 hu hy
    simp only [SetFlagValues, if_neg h0, hu, hy]

/-- Witness for C10: on the base configuration (no `cmdflags` value at
all) the call is a no-op success, and with a decoded mapping carrying
only a different command's entry the call fails with the Invalid
error, registry unchanged. -/
theorem cmdflags_missing_entry_witness :
    SetFlagValues um10 Config.base "mycmd" reg8 = (reg8, none)
    ∧ SetFlagValues um10 cfg7 "mycmd" reg8
      = (reg8, some (FlagsErr.badCmdflagsFor "mycmd")) :=
  ⟨(cmdflags_missing_entry um10 Config.base "mycmd" reg8
      [(YVal.str "othercmd", YVal.map [])]).1 (by rfl),
   (cmdflags_missing_entry um10 cfg7 "mycmd" reg8
      [(YVal.str "othercmd", YVal.map [])]).2 (by decide) (by rfl) (by rfl)⟩

/-- C1: applying the overlay for a field tag `f` twice, first with `x`
then with `y`, yields a configuration whose accessor for `f` returns
`y`, whose accessor for every other field tag returns the same value as
`C`'s, and whose `Value` accessor agrees with `C`'s at every key; in
particular setting any one endpoint never changes any other endpoint. -/
theorem overlay_shadowing (C : Config) (f : FieldTag) (x y : f.Val) :
    getField f (setField f y (setField f x C)) = y
    ∧ (∀ g : FieldTag, g ≠ f →
        getField g (setField f y (setField f x C)) = getField g C)
    ∧ (∀ k : String, (setField f y (setField f x C)).Value k = C.Value k) := by
  refine ⟨?_, ?_, ?_⟩
  · cases f <;> rfl
  · intro g hg
    cases f <;> cases g <;> first | exact absurd rfl hg | rfl
  · intro k
    cases f <;> rfl

/-- Witness for C1 at a concrete input: setting the key endpoint twice
on the base configuration leaves the store endpoint at its default and
makes the key endpoint the second value. -/
theorem overlay_shadowing_witness :
    getField FieldTag.storeEndpoint
      (setField FieldTag.keyEndpoint ⟨Transport.remote, "b:1"⟩
        (setField FieldTag.keyEndpoint ⟨Transport.remote, "a:1"⟩ Config.base))
      = Endpoint.zero
    ∧ getField FieldTag.keyEndpoint
      (setField FieldTag.keyEndpoint ⟨Transport.remote, "b:1"⟩
        (setField FieldTag.keyEndpoint ⟨Transport.remote, "a:1"⟩ Config.base))
      = ⟨Transport.remote, "b:1"⟩ :=
  ⟨(overlay_shadowing Config.base FieldTag.keyEndpoint
      ⟨Transport.remote, "a:1"⟩ ⟨Transport.remote, "b:1"⟩).2.1
      FieldTag.storeEndpoint (by decide),
   (overlay_shadowing Config.base FieldTag.keyEndpoint
      ⟨Transport.remote, "a:1"⟩ ⟨Transport.remote, "b:1"⟩).1⟩

/-- C2: two single-field overrides on distinct field tags commute
observationally: every field accessor and the `Value` accessor at every
key agree between the two application orders. -/
theorem overlay_disjoint_commute (C : Config) (f g : FieldTag) (hfg : f ≠ g)
    (x : f.Val) (y : g.Val) :
    (∀ t : FieldTag,
        getField t (setField g y (setField f x C))
          = getField t (setField f x (setField g y C)))
    ∧ (∀ k : String,
        (setField g y (setField f x C)).Value k
          = (setField f x (setField g y C)).Value k) := by
  constructor
  · intro t
    cases f <;> cases g <;> first
      | exact absurd rfl hfg
      | cases t <;> rfl
  · intro k
    cases f <;> cases g <;> first
      | exact absurd rfl hfg
      | rfl

/-- Witness for C2 at a concrete input: a user-name override and a
store-endpoint override on the base configuration commute on the
user-name accessor. -/
theorem overlay_disjoint_commute_witness :
    getField FieldTag.userName
      (setField FieldTag.storeEndpoint ⟨Transport.remote, "s:1"⟩
        (setField FieldTag.userName "alice@example.com" Config.base))
      = getField FieldTag.userName
        (setField FieldTag.userName "alice@example.com"
          (setField FieldTag.storeEndpoint ⟨Transport.remote, "s:1"⟩ Config.base)) :=
  (overlay_disjoint_commute Config.base FieldTag.userName FieldTag.storeEndpoint
    (by decide) "alice@example.com" ⟨Transport.remote, "s:1"⟩).1 FieldTag.userName

end UpspinConfig
